import Mathlib

/-!
Verification of the iteration-count estimator and series accumulator of the
`GPA` bilateral-filter approximation in `Collections/muvsfunc_misc.py`.

The Python routine works on real-valued planes (internally at 32-bit float;
we model the arithmetic over `ℝ`).  A plane is modelled as a function from an
abstract pixel-index type to `ℝ`; the external low-pass primitive (`TCanny`
Gaussian or `BoxFilter`) is an injected plane transformer.  Python's
`math.log` raises `ValueError` on non-positive arguments and `/` raises
`ZeroDivisionError` on a zero denominator, so those two primitives are
modelled as `Option`-valued and the estimator threads the failure.
-/

noncomputable section

namespace Muvs

/-- `math.log x`: defined (as the real logarithm) only for `0 < x`;
Python raises `ValueError: math domain error` otherwise. -/
def pylog (x : ℝ) : Option ℝ :=
  if 0 < x then some (Real.log x) else none

/-- Python float division `a / b`: raises `ZeroDivisionError` when `b = 0`. -/
def pydiv (a b : ℝ) : Option ℝ :=
  if b = 0 then none else some (a / b)

/-- One pass of the body of the Newton loop in `estimate_iteration`
(source line 393): `N -= (N*log(N) - p*N - q) / (log(N) + 1 - p)`. -/
def newton_body (p q N : ℝ) : Option ℝ :=
  Option.bind (pylog N) fun logN =>
  Option.bind (pydiv (N * logN - p * N - q) (logN + 1 - p)) fun d =>
  some (N - d)

/-- `for i in range(k): N -= ...` — `k` successive Newton passes. -/
def newton_iter : ℕ → ℝ → ℝ → ℝ → Option ℝ
  | 0, _, _, N => some N
  | k + 1, p, q, N => Option.bind (newton_body p q N) (newton_iter k p q)

/-- `estimate_iteration` (source lines 378–395), transcribed statement by
statement.  `8 / 3` is Python float division of constants, hence `(8:ℝ)/3`. -/
def estimate_iteration (sigmaR T eps : ℝ) : Option ℤ :=
  if sigmaR > 70 then some 10
  else if sigmaR < 5 then some 800
  else
    Option.bind (pydiv T sigmaR) fun r =>
    let lam := r ^ 2
    Option.bind (pylog lam) fun loglam =>
    let p := 1 + loglam
    Option.bind (pylog eps) fun logeps =>
    let q := -lam - logeps
    Option.bind (pydiv q (Real.exp 1)) fun t1 =>
    Option.bind (pydiv t1 lam) fun t =>
    let W := t - t ^ 2 + 1.5 * t ^ 3 - (8 / 3) * t ^ 4
    Option.bind (pydiv q W) fun qW =>
    let N := min (max qW 10) 300
    Option.bind (if sigmaR < 30 then newton_iter 5 p q N else some N) fun Nf =>
    some ⌈Nf⌉

/-! ## Spec-side description of the estimator's middle branch (claim C2)

Transcription of the claim's wording: compute `lam = (T/sigmaR)^2`,
`p = 1 + ln lam`, `q = −lam − ln eps`; take the initial estimate from the
asymptotic closed-form approximation of the inverse of `x·ln x` (the
truncated series in `t = q/(e·lam)`) clamped to `[10, 300]`; apply exactly
5 Newton iterations for the root of `g(N) = N·ln N − p·N − q` (so
`N ← N − g(N)/g'(N)` with `g'(N) = ln N + 1 − p`) precisely when
`sigmaR < 30`; return `⌈N⌉`. -/

/-- The claim's initial estimate: asymptotic inverse of `x·ln x` at
`t = q/e/lam`, clamped to `[10, 300]`. -/
def specInitEstimate (lam q : ℝ) : Option ℝ :=
  Option.bind (pydiv q (Real.exp 1)) fun t1 =>
  Option.bind (pydiv t1 lam) fun t =>
  let W := t - t ^ 2 + 1.5 * t ^ 3 - (8 / 3) * t ^ 4
  Option.bind (pydiv q W) fun qW =>
  some (min (max qW 10) 300)

/-- One Newton iteration for `g(N) = N·ln N − p·N − q`:
`N ← N − g(N)/g'(N)` with `g'(N) = ln N + 1 − p`. -/
def specNewtonStep (p q N : ℝ) : Option ℝ :=
  Option.bind (pylog N) fun lnN =>
  Option.bind (pydiv (N * lnN - p * N - q) (lnN + 1 - p)) fun upd =>
  some (N - upd)

/-- `k` Newton iterations of `specNewtonStep`. -/
def specNewton : ℕ → ℝ → ℝ → ℝ → Option ℝ
  | 0, _, _, N => some N
  | k + 1, p, q, N => Option.bind (specNewtonStep p q N) (specNewton k p q)

/-- The estimator as the claim words it for `5 ≤ sigmaR ≤ 70`. -/
def specEstimateMiddle (sigmaR T eps : ℝ) : Option ℤ :=
  Option.bind (pydiv T sigmaR) fun r =>
  let lam := r ^ 2
  Option.bind (pylog lam) fun lnlam =>
  let p := 1 + lnlam
  Option.bind (pylog eps) fun lneps =>
  let q := -lam - lneps
  Option.bind (specInitEstimate lam q) fun N0 =>
  Option.bind (if sigmaR < 30 then specNewton 5 p q N0 else some N0) fun N =>
  some ⌈N⌉

/-- A single-channel plane: a real sample at every pixel index. -/
abbrev Plane (ι : Type) := ι → ℝ

/-- The constant `T = 0.5` fixed at the top of `GPA` (source line 397). -/
def gpaT : ℝ := 0.5

/-- `H = core.std.Expr(clip, 'x T - sigmaR /')` (source line 411). -/
def gpaH {ι : Type} (sigmaR : ℝ) (x : Plane ι) : Plane ι :=
  fun px => (x px - gpaT) / sigmaR

/-- The five planes carried across the accumulation loop of `GPA`. -/
structure GPAState (ι : Type) where
  F : Plane ι
  G : Plane ι
  P : Plane ι
  Q : Plane ι
  Fbar : Plane ι

/-- Loop entry state (source lines 412–416):
`F = exp(-0.5 * x * x)` applied to `H`, `G = 1`, `P = Q = 0`,
`Fbar = Filter(F)`. -/
def gpaInit {ι : Type} (Filter : Plane ι → Plane ι) (H : Plane ι) :
    GPAState ι :=
  let F : Plane ι := fun px => Real.exp (-0.5 * (H px * H px))
  { F := F
    G := fun _ => 1
    P := fun _ => 0
    Q := fun _ => 0
    Fbar := Filter F }

/-- One pass of the accumulation loop at index `i` (source lines 418–425):
`Q = Q + G*Fbar`; `F = H*F*inv_sqrt_i`; `Fbar = Filter(F)`;
`P = P + G*Fbar*sqrt_i` (with the freshly filtered `Fbar`);
`G = H*G*inv_sqrt_i`. -/
def gpaStep {ι : Type} (Filter : Plane ι → Plane ι) (H : Plane ι) (i : ℕ)
    (s : GPAState ι) : GPAState ι :=
  let sqrt_i : ℝ := Real.sqrt i
  let inv_sqrt_i : ℝ := 1 / sqrt_i
  let Q : Plane ι := fun px => s.Q px + s.G px * s.Fbar px
  let F : Plane ι := fun px => H px * s.F px * inv_sqrt_i
  let Fbar : Plane ι := Filter F
  let P : Plane ι := fun px => s.P px + s.G px * Fbar px * sqrt_i
  let G : Plane ι := fun px => H px * s.G px * inv_sqrt_i
  { F := F, G := G, P := P, Q := Q, Fbar := Fbar }

/-- `for i in range(1, n+1)` over the loop body. -/
def gpaLoop {ι : Type} (Filter : Plane ι → Plane ι) (H : Plane ι) :
    ℕ → GPAState ι
  | 0 => gpaInit Filter H
  | n + 1 => gpaStep Filter H (n + 1) (gpaLoop Filter H n)

/-- `res = core.std.Expr([P, Q], 'x sigmaR * y 1e-5 + / T +')`
(source line 427). -/
def gpaRes {ι : Type} (sigmaR : ℝ) (P Q : Plane ι) : Plane ι :=
  fun px => P px * sigmaR / (Q px + 1e-5) + gpaT

/-- The accumulation pipeline of `GPA` for a given low-pass operator and a
resolved iteration count `n` (source lines 409–427; the surrounding
`mvf.Depth` format conversions are external collaborators and are modelled
as the identity on real planes). -/
def gpaRun {ι : Type} (Filter : Plane ι → Plane ι) (sigmaR : ℝ) (n : ℕ)
    (x : Plane ι) : Plane ι :=
  let H := gpaH sigmaR x
  let s := gpaLoop Filter H n
  gpaRes sigmaR s.P s.Q

/-- `GPA` after its low-pass operator has been selected: resolve the
iteration count (`iteration == 0` triggers the estimator on
`sigmaR * 255`, source lines 406–407; `range(1, iteration+1)` is empty for
non-positive counts, hence `.toNat`) and run the accumulation. -/
def GPAwith {ι : Type} (Filter : Plane ι → Plane ι) (sigmaR : ℝ)
    (iteration : ℤ) (eps : ℝ) (x : Plane ι) : Option (Plane ι) :=
  match (if iteration = 0
          then estimate_iteration (sigmaR * 255) gpaT eps
          else some iteration) with
  | none => none
  | some n => some (gpaRun Filter sigmaR n.toNat x)

/-- `GPA` (source lines 330, 401–429): `mode == 0` selects the Gaussian
low-pass primitive (`TCanny` with `sigma=sigmaS`), any other mode the box
primitive (`BoxFilter` with `radius=sigmaS + 1`); both are injected here as
abstract plane transformers parameterised by that argument. -/
def GPA {ι : Type} (gauss box : ℝ → Plane ι → Plane ι) (sigmaS sigmaR : ℝ)
    (mode iteration : ℤ) (eps : ℝ) (x : Plane ι) : Option (Plane ι) :=
  GPAwith (if mode = 0 then gauss sigmaS else box (sigmaS + 1))
    sigmaR iteration eps x

/-! ## Basic evaluation lemmas -/

theorem pylog_pos {x : ℝ} (hx : 0 < x) : pylog x = some (Real.log x) :=
  if_pos hx

theorem pylog_nonpos {x : ℝ} (hx : x ≤ 0) : pylog x = none :=
  if_neg (not_lt.2 hx)

theorem pydiv_ne {a b : ℝ} (hb : b ≠ 0) : pydiv a b = some (a / b) :=
  if_neg hb

/-! ## Spec-side recurrence for the accumulator (claim C1)

These definitions transcribe the specification's wording of the
accumulation recurrence (`F₀ = exp(−H²/2)`, the five update equations with
division by `sqrt i`, and the final combination `sigmaR·P_N/(Q_N+1e-5)+T`),
to be compared with the source-side `gpaRun`. -/

/-- Spec wording: `F₀ = exp(−H²/2)`, `G₀ = 1`, `P₀ = Q₀ = 0`,
`F̄₀ = Filter(F₀)`. -/
def specRecInit {ι : Type} (Filter : Plane ι → Plane ι) (H : Plane ι) :
    GPAState ι :=
  let F : Plane ι := fun px => Real.exp (-(H px ^ 2) / 2)
  { F := F
    G := fun _ => 1
    P := fun _ => 0
    Q := fun _ => 0
    Fbar := Filter F }

/-- Spec wording of iteration `i`:
`Q_i = Q_{i−1} + G_{i−1}·F̄_{i−1}`, `F_i = H·F_{i−1}/sqrt i`,
`F̄_i = Filter F_i`, `P_i = P_{i−1} + G_{i−1}·F̄_i·sqrt i`,
`G_i = H·G_{i−1}/sqrt i`. -/
def specRecStep {ι : Type} (Filter : Plane ι → Plane ι) (H : Plane ι)
    (i : ℕ) (s : GPAState ι) : GPAState ι :=
  let Q : Plane ι := fun px => s.Q px + s.G px * s.Fbar px
  let F : Plane ι := fun px => H px * s.F px / Real.sqrt i
  let Fbar : Plane ι := Filter F
  let P : Plane ι := fun px => s.P px + s.G px * Fbar px * Real.sqrt i
  let G : Plane ι := fun px => H px * s.G px / Real.sqrt i
  { F := F, G := G, P := P, Q := Q, Fbar := Fbar }

/-- The spec recurrence iterated for `i = 1..n`. -/
def specRecLoop {ι : Type} (Filter : Plane ι → Plane ι) (H : Plane ι) :
    ℕ → GPAState ι
  | 0 => specRecInit Filter H
  | n + 1 => specRecStep Filter H (n + 1) (specRecLoop Filter H n)

/-- Spec wording of the whole accumulation: `H = (x − T)/sigmaR`, run the
recurrence `N` times, output `sigmaR·P_N/(Q_N + 1e-5) + T`. -/
def specRecOut {ι : Type} (Filter : Plane ι → Plane ι) (sigmaR : ℝ) (n : ℕ)
    (x : Plane ι) : Plane ι :=
  let H : Plane ι := fun px => (x px - gpaT) / sigmaR
  let s := specRecLoop Filter H n
  fun px => sigmaR * s.P px / (s.Q px + 1e-5) + gpaT

theorem gpaInit_eq_specRecInit {ι : Type} (Filter : Plane ι → Plane ι)
    (H : Plane ι) : gpaInit Filter H = specRecInit Filter H := by
  have hF : (fun px => Real.exp (-0.5 * (H px * H px)))
      = fun px => Real.exp (-(H px ^ 2) / 2) := by
    funext px
    congr 1
    ring
  simp only [gpaInit, specRecInit, hF]

theorem gpaStep_eq_specRecStep {ι : Type} (Filter : Plane ι → Plane ι)
    (H : Plane ι) (i : ℕ) (s : GPAState ι) :
    gpaStep Filter H i s = specRecStep Filter H i s := by
  have hF : (fun px => H px * s.F px * (1 / Real.sqrt (i : ℝ)))
      = fun px => H px * s.F px / Real.sqrt (i : ℝ) := by
    funext px
    rw [mul_one_div]
  have hG : (fun px => H px * s.G px * (1 / Real.sqrt (i : ℝ)))
      = fun px => H px * s.G px / Real.sqrt (i : ℝ) := by
    funext px
    rw [mul_one_div]
  simp only [gpaStep, specRecStep, hF, hG]

theorem gpaLoop_eq_specRecLoop {ι : Type} (Filter : Plane ι → Plane ι)
    (H : Plane ι) (n : ℕ) :
    gpaLoop Filter H n = specRecLoop Filter H n := by
  induction n with
  | zero => exact gpaInit_eq_specRecInit Filter H
  | succ n ih =>
      show gpaStep Filter H (n + 1) (gpaLoop Filter H n) = _
      rw [ih, gpaStep_eq_specRecStep]
      rfl

theorem gpaLoop_zero {ι : Type} (Filter : Plane ι → Plane ι) (H : Plane ι) :
    gpaLoop Filter H 0 = gpaInit Filter H := rfl

theorem gpaRun_zero {ι : Type} (Filter : Plane ι → Plane ι) (sigmaR : ℝ)
    (x : Plane ι) : gpaRun Filter sigmaR 0 x = fun _ => gpaT := by
  funext px
  simp [gpaRun, gpaLoop, gpaInit, gpaRes]

/-! ## Claim theorems -/

/-- Claim C1: for every input plane, every `sigmaR > 0`, `T = 0.5` (the
constant `GPA` fixes), every positive iteration count `N` and every
low-pass operator `Filter`, the accumulation of `GPA` computes exactly the
recurrence stated in the specification and combines the accumulators as
`sigmaR·P_N/(Q_N + 1e-5) + T`. -/
theorem GPA_accumulation_follows_recurrence {ι : Type}
    (Filter : Plane ι → Plane ι) (sigmaR : ℝ) (N : ℕ) (x : Plane ι)
    (_hs : 0 < sigmaR) (_hN : 0 < N) :
    gpaRun Filter sigmaR N x = specRecOut Filter sigmaR N x := by
  funext px
  simp only [gpaRun, specRecOut, gpaRes]
  rw [show gpaH sigmaR x = (fun px => (x px - gpaT) / sigmaR) from rfl,
    gpaLoop_eq_specRecLoop]
  ring

/-- Witness for C1 (identity low-pass operator, constant plane,
`sigmaR = 1`, `N = 1`). -/
theorem GPA_accumulation_follows_recurrence_witness :
    gpaRun (fun pl : Plane Unit => pl) 1 1 (fun _ => 0) =
      specRecOut (fun pl : Plane Unit => pl) 1 1 (fun _ => 0) :=
  GPA_accumulation_follows_recurrence (fun pl : Plane Unit => pl) 1 1
    (fun _ => 0) (by norm_num) (by norm_num)

/-- Evaluation of the estimator's middle branch at `T = sigmaR` (so
`lam = 1`, `p = 1`) and `eps = exp a` (so `q = -1 - a`). -/
theorem estimate_iteration_middle_eval (sigmaR a : ℝ)
    (h70 : ¬ sigmaR > 70) (h5 : ¬ sigmaR < 5) (hs : sigmaR ≠ 0) :
    estimate_iteration sigmaR sigmaR (Real.exp a) =
      (let q : ℝ := -1 - a
       let t : ℝ := q / Real.exp 1
       let W : ℝ := t - t ^ 2 + 1.5 * t ^ 3 - (8 / 3) * t ^ 4
       Option.bind (pydiv q W) fun qW =>
       Option.bind
         (if sigmaR < 30 then newton_iter 5 1 q (min (max qW 10) 300)
          else some (min (max qW 10) 300)) fun Nf =>
       some ⌈Nf⌉) := by
  unfold estimate_iteration
  rw [if_neg h70, if_neg h5, pydiv_ne hs, div_self hs]
  simp only [Option.some_bind, one_pow, pylog_pos one_pos, Real.log_one,
    add_zero, pylog_pos (Real.exp_pos a), Real.log_exp,
    pydiv_ne (Real.exp_ne_zero 1), pydiv_ne one_ne_zero, div_one]

/-- At `sigmaR = T = 50`, `eps = exp (-3.01)`, the asymptotic estimate
`q/W` exceeds the upper clamp, so the estimator returns 300. -/
theorem estimate_iteration_at_eps1 :
    estimate_iteration 50 50 (Real.exp (-3.01)) = some 300 := by
  rw [estimate_iteration_middle_eval 50 (-3.01) (by norm_num) (by norm_num)
    (by norm_num)]
  have hq : (-1 - (-3.01) : ℝ) = 2.01 := by norm_num
  simp only [hq]
  set t : ℝ := 2.01 / Real.exp 1 with ht_def
  have he1 : (2.7182818283 : ℝ) < Real.exp 1 := Real.exp_one_gt_d9
  have he2 : Real.exp 1 < 2.7182818286 := Real.exp_one_lt_d9
  have hep : (0 : ℝ) < Real.exp 1 := Real.exp_pos 1
  have ht1 : (0.739437676715 : ℝ) < t := by
    have h1 : (2.01 : ℝ) / 2.7182818286 < 2.01 / Real.exp 1 :=
      div_lt_div_of_pos_left (by norm_num) hep he2
    have h2 : (0.739437676715 : ℝ) < 2.01 / 2.7182818286 := by norm_num
    exact h2.trans h1
  have ht2 : t < 0.739437676799 := by
    have h1 : (2.01 : ℝ) / Real.exp 1 < 2.01 / 2.7182818283 :=
      div_lt_div_of_pos_left (by norm_num) (by norm_num) he1
    have h2 : (2.01 : ℝ) / 2.7182818283 < 0.739437676799 := by norm_num
    exact h1.trans h2
  have ht0 : (0 : ℝ) < t := lt_trans (by norm_num) ht1
  have hp2u : t ^ 2 < (0.739437676799 : ℝ) ^ 2 :=
    pow_lt_pow_left₀ ht2 ht0.le (by norm_num)
  have hp2l : (0.739437676715 : ℝ) ^ 2 < t ^ 2 :=
    pow_lt_pow_left₀ ht1 (by norm_num) (by norm_num)
  have hp3u : t ^ 3 < (0.739437676799 : ℝ) ^ 3 :=
    pow_lt_pow_left₀ ht2 ht0.le (by norm_num)
  have hp3l : (0.739437676715 : ℝ) ^ 3 < t ^ 3 :=
    pow_lt_pow_left₀ ht1 (by norm_num) (by norm_num)
  have hp4u : t ^ 4 < (0.739437676799 : ℝ) ^ 4 :=
    pow_lt_pow_left₀ ht2 ht0.le (by norm_num)
  have hp4l : (0.739437676715 : ℝ) ^ 4 < t ^ 4 :=
    pow_lt_pow_left₀ ht1 (by norm_num) (by norm_num)
  have hW_lo : (0 : ℝ) < t - t ^ 2 + 1.5 * t ^ 3 - (8 / 3) * t ^ 4 := by
    nlinarith [ht1, hp2u, hp3l, hp4u]
  have hW_hi : t - t ^ 2 + 1.5 * t ^ 3 - (8 / 3) * t ^ 4 ≤ 0.0067 := by
    nlinarith [ht2, hp2l, hp3u, hp4l]
  have h300 : (300 : ℝ) ≤ 2.01 / (t - t ^ 2 + 1.5 * t ^ 3 - (8 / 3) * t ^ 4) := by
    rw [le_div_iff₀ hW_lo]
    linarith
  rw [pydiv_ne (ne_of_gt hW_lo)]
  simp only [Option.some_bind]
  rw [max_eq_left (le_trans (by norm_num) h300), min_eq_right h300,
    if_neg (by norm_num : ¬ (50 : ℝ) < 30)]
  simp

/-- At `sigmaR = T = 50`, `eps = exp (-3.03)`, the asymptotic estimate
`q/W` is negative (past the series pole), so the lower clamp fires and the
estimator returns 10. -/
theorem estimate_iteration_at_eps2 :
    estimate_iteration 50 50 (Real.exp (-3.03)) = some 10 := by
  rw [estimate_iteration_middle_eval 50 (-3.03) (by norm_num) (by norm_num)
    (by norm_num)]
  have hq : (-1 - (-3.03) : ℝ) = 2.03 := by norm_num
  simp only [hq]
  set t : ℝ := 2.03 / Real.exp 1 with ht_def
  have he1 : (2.7182818283 : ℝ) < Real.exp 1 := Real.exp_one_gt_d9
  have he2 : Real.exp 1 < 2.7182818286 := Real.exp_one_lt_d9
  have hep : (0 : ℝ) < Real.exp 1 := Real.exp_pos 1
  have ht1 : (0.746795265538 : ℝ) < t := by
    have h1 : (2.03 : ℝ) / 2.7182818286 < 2.03 / Real.exp 1 :=
      div_lt_div_of_pos_left (by norm_num) hep he2
    have h2 : (0.746795265538 : ℝ) < 2.03 / 2.7182818286 := by norm_num
    exact h2.trans h1
  have ht2 : t < 0.746795265623 := by
    have h1 : (2.03 : ℝ) / Real.exp 1 < 2.03 / 2.7182818283 :=
      div_lt_div_of_pos_left (by norm_num) (by norm_num) he1
    have h2 : (2.03 : ℝ) / 2.7182818283 < 0.746795265623 := by norm_num
    exact h1.trans h2
  have ht0 : (0 : ℝ) < t := lt_trans (by norm_num) ht1
  have hp2l : (0.746795265538 : ℝ) ^ 2 < t ^ 2 :=
    pow_lt_pow_left₀ ht1 (by norm_num) (by norm_num)
  have hp3u : t ^ 3 < (0.746795265623 : ℝ) ^ 3 :=
    pow_lt_pow_left₀ ht2 ht0.le (by norm_num)
  have hp4l : (0.746795265538 : ℝ) ^ 4 < t ^ 4 :=
    pow_lt_pow_left₀ ht1 (by norm_num) (by norm_num)
  have hW_neg : t - t ^ 2 + 1.5 * t ^ 3 - (8 / 3) * t ^ 4 < 0 := by
    nlinarith [ht2, hp2l, hp3u, hp4l]
  have hqW_neg : 2.03 / (t - t ^ 2 + 1.5 * t ^ 3 - (8 / 3) * t ^ 4) < 0 :=
    div_neg_of_pos_of_neg (by norm_num) hW_neg
  have h10 : 2.03 / (t - t ^ 2 + 1.5 * t ^ 3 - (8 / 3) * t ^ 4) ≤ 10 :=
    le_trans hqW_neg.le (by norm_num)
  rw [pydiv_ne (ne_of_lt hW_neg)]
  simp only [Option.some_bind]
  rw [max_eq_right h10, min_eq_left (by norm_num : (10 : ℝ) ≤ 300),
    if_neg (by norm_num : ¬ (50 : ℝ) < 30)]
  simp

/-- Counterexample to claim C4: at `sigmaR = T = 50`, lowering `eps` from
`exp (-3.01)` to `exp (-3.03)` drops the estimate from 300 to 10, so the
estimator is not monotonically non-decreasing as `eps` decreases. -/
theorem estimate_iteration_eps_monotonicity_counterexample :
    (0 : ℝ) < Real.exp (-3.03) ∧
    Real.exp (-3.03) ≤ Real.exp (-3.01) ∧
    estimate_iteration 50 50 (Real.exp (-3.01)) = some 300 ∧
    estimate_iteration 50 50 (Real.exp (-3.03)) = some 10 ∧
    ¬ ((10 : ℤ) ≥ 300) :=
  ⟨Real.exp_pos _, Real.exp_le_exp.2 (by norm_num),
    estimate_iteration_at_eps1, estimate_iteration_at_eps2, by norm_num⟩

theorem newton_body_nonpos {p q N : ℝ} (hN : N ≤ 0) :
    newton_body p q N = none := by
  unfold newton_body
  rw [pylog_nonpos hN]
  rfl

/-- Counterexample to claim C3: at `sigmaR = 10`, `T = 10`,
`eps = exp 700` (all strictly positive), the first Newton pass drives `N`
negative, and the second pass takes `log` of that negative value —
a `ValueError: math domain error` in Python, `none` in the model.  The
estimator therefore does not return a positive integer `≤ 800` for every
positive input. -/
theorem estimate_iteration_totality_counterexample :
    (0 : ℝ) < 10 ∧ (0 : ℝ) < Real.exp 700 ∧
    estimate_iteration 10 10 (Real.exp 700) = none := by
  refine ⟨by norm_num, Real.exp_pos 700, ?_⟩
  rw [estimate_iteration_middle_eval 10 700 (by norm_num) (by norm_num)
    (by norm_num)]
  have hq : (-1 - (700 : ℝ)) = -701 := by norm_num
  simp only [hq]
  set t : ℝ := -701 / Real.exp 1 with ht_def
  have he2 : Real.exp 1 < 2.7182818286 := Real.exp_one_lt_d9
  have hep : (0 : ℝ) < Real.exp 1 := Real.exp_pos 1
  have ht : t < -100 := by
    rw [ht_def, div_lt_iff₀ hep]
    nlinarith
  have ht2 : 0 ≤ t ^ 2 := sq_nonneg t
  have ht4 : 0 ≤ t ^ 4 := by positivity
  have ht3 : t ^ 3 ≤ 0 := by nlinarith [sq_nonneg t]
  have hWt : t - t ^ 2 + 1.5 * t ^ 3 - (8 / 3) * t ^ 4 ≤ t := by linarith
  have hW_neg : t - t ^ 2 + 1.5 * t ^ 3 - (8 / 3) * t ^ 4 < 0 :=
    lt_of_le_of_lt hWt (by linarith)
  have hq10 : -701 / (t - t ^ 2 + 1.5 * t ^ 3 - (8 / 3) * t ^ 4) ≤ 10 := by
    rw [div_le_iff_of_neg hW_neg]
    linarith
  rw [pydiv_ne (ne_of_lt hW_neg)]
  simp only [Option.some_bind]
  rw [max_eq_right hq10, min_eq_left (by norm_num : (10 : ℝ) ≤ 300),
    if_pos (by norm_num : (10 : ℝ) < 30)]
  have hL : (0 : ℝ) < Real.log 10 := Real.log_pos (by norm_num)
  have hstep1 : newton_body 1 (-701) 10 =
      some (10 - (10 * Real.log 10 - 1 * 10 - -701) / Real.log 10) := by
    unfold newton_body
    rw [pylog_pos (by norm_num : (0 : ℝ) < 10)]
    simp only [Option.some_bind]
    rw [show Real.log 10 + 1 - 1 = Real.log 10 by ring,
      pydiv_ne (ne_of_gt hL)]
    rfl
  have hN1 : 10 - (10 * Real.log 10 - 1 * 10 - -701) / Real.log 10 ≤ 0 := by
    rw [sub_nonpos, le_div_iff₀ hL]
    linarith
  have h5iter : newton_iter 5 1 (-701) 10 = none := by
    show Option.bind (newton_body 1 (-701) 10) (newton_iter 4 1 (-701)) = none
    rw [hstep1]
    simp only [Option.some_bind]
    show Option.bind
      (newton_body 1 (-701)
        (10 - (10 * Real.log 10 - 1 * 10 - -701) / Real.log 10))
      (newton_iter 3 1 (-701)) = none
    rw [newton_body_nonpos hN1]
    rfl
  rw [h5iter]
  rfl

/-- Amended claim C3: for every `T > 0`, `eps > 0` the estimator is a
deterministic function that (a) on the constant branches — `sigmaR > 70`
or `sigmaR < 5` — always returns a positive integer `N ≤ 800` (namely 10
or 800), and (b) for `30 ≤ sigmaR ≤ 70` returns a positive integer
`N ≤ 800` whenever it returns at all.  For `5 ≤ sigmaR ≤ 70` adversarial
`eps` can instead make the routine raise a math domain error (and for
`5 ≤ sigmaR < 30` the Newton refinement can even succeed with values
outside `(0, 800]`), so the original unconditional claim fails. -/
theorem estimate_iteration_pos_bounded_amended
    (sigmaR T eps : ℝ) (_hT : 0 < T) (_heps : 0 < eps) :
    ((sigmaR > 70 ∨ sigmaR < 5) →
      ∃ n : ℤ, estimate_iteration sigmaR T eps = some n ∧ 0 < n ∧ n ≤ 800) ∧
    (30 ≤ sigmaR → sigmaR ≤ 70 →
      ∀ n : ℤ, estimate_iteration sigmaR T eps = some n →
        0 < n ∧ n ≤ 800) := by
  constructor
  · rintro (h | h)
    · refine ⟨10, ?_, by norm_num, by norm_num⟩
      unfold estimate_iteration
      rw [if_pos h]
    · refine ⟨800, ?_, by norm_num, le_refl _⟩
      unfold estimate_iteration
      rw [if_neg (by linarith : ¬ sigmaR > 70), if_pos h]
  · intro h30 h70 n hn
    unfold estimate_iteration at hn
    rw [if_neg (by linarith : ¬ sigmaR > 70),
      if_neg (by linarith : ¬ sigmaR < 5)] at hn
    simp only [if_neg (by linarith : ¬ sigmaR < 30)] at hn
    rcases Option.bind_eq_some.mp hn with ⟨r, _, hn⟩
    rcases Option.bind_eq_some.mp hn with ⟨loglam, _, hn⟩
    rcases Option.bind_eq_some.mp hn with ⟨logeps, _, hn⟩
    rcases Option.bind_eq_some.mp hn with ⟨t1, _, hn⟩
    rcases Option.bind_eq_some.mp hn with ⟨t, _, hn⟩
    rcases Option.bind_eq_some.mp hn with ⟨qW, _, hn⟩
    simp only [Option.some_bind, Option.some.injEq] at hn
    subst hn
    have h10 : (10 : ℝ) ≤ min (max qW 10) 300 :=
      le_min (le_max_right qW 10) (by norm_num)
    have h300 : min (max qW 10) 300 ≤ (300 : ℝ) := min_le_right _ _
    constructor
    · exact Int.ceil_pos.mpr (lt_of_lt_of_le (by norm_num) h10)
    · have : (⌈min (max qW 10) 300⌉ : ℤ) ≤ 300 :=
        Int.ceil_le.mpr (by exact_mod_cast h300)
      omega

/-- Witness for the amended C3 at `sigmaR = 71`, `T = 1`, `eps = 1`. -/
theorem estimate_iteration_pos_bounded_amended_witness :
    (((71 : ℝ) > 70 ∨ (71 : ℝ) < 5) →
      ∃ n : ℤ, estimate_iteration 71 1 1 = some n ∧ 0 < n ∧ n ≤ 800) ∧
    ((30 : ℝ) ≤ 71 → (71 : ℝ) ≤ 70 →
      ∀ n : ℤ, estimate_iteration 71 1 1 = some n → 0 < n ∧ n ≤ 800) :=
  estimate_iteration_pos_bounded_amended 71 1 1 (by norm_num) (by norm_num)

/-- Amended claim C4: on the constant branches — `sigmaR > 70` or
`sigmaR < 5` — decreasing `eps` never decreases the estimate (it is
constant there).  (On `5 ≤ sigmaR ≤ 70` monotonicity in `eps` fails, as
the counterexample shows.) -/
theorem estimate_iteration_eps_monotone_on_constant_branches
    (sigmaR T eps1 eps2 : ℝ) (h : sigmaR > 70 ∨ sigmaR < 5)
    (_h2 : 0 < eps2) (_h12 : eps2 ≤ eps1) :
    ∃ n1 n2 : ℤ, estimate_iteration sigmaR T eps1 = some n1 ∧
      estimate_iteration sigmaR T eps2 = some n2 ∧ n1 ≤ n2 := by
  rcases h with h | h
  · refine ⟨10, 10, ?_, ?_, le_refl _⟩ <;>
      · unfold estimate_iteration
        rw [if_pos h]
  · refine ⟨800, 800, ?_, ?_, le_refl _⟩ <;>
      · unfold estimate_iteration
        rw [if_neg (by linarith : ¬ sigmaR > 70), if_pos h]

/-- Witness for the amended C4 at `sigmaR = 2`. -/
theorem estimate_iteration_eps_monotone_on_constant_branches_witness :
    ∃ n1 n2 : ℤ, estimate_iteration 2 1 1 = some n1 ∧
      estimate_iteration 2 1 (1 / 2) = some n2 ∧ n1 ≤ n2 :=
  estimate_iteration_eps_monotone_on_constant_branches 2 1 1 (1 / 2)
    (Or.inr (by norm_num)) (by norm_num) (by norm_num)

/-- Claim C7: with `N = 0` loop iterations the accumulators stay
`P = Q = 0` everywhere, the denominator of the combining expression is the
constant `1e-5` (never exactly zero), and the combined output equals `T`
everywhere. -/
theorem GPA_zero_iterations (ι : Type) (Filter : Plane ι → Plane ι)
    (sigmaR : ℝ) (x : Plane ι) :
    (gpaLoop Filter (gpaH sigmaR x) 0).P = (fun _ => 0) ∧
    (gpaLoop Filter (gpaH sigmaR x) 0).Q = (fun _ => 0) ∧
    (∀ px, (gpaLoop Filter (gpaH sigmaR x) 0).Q px + 1e-5 = 1e-5) ∧
    (1e-5 : ℝ) ≠ 0 ∧
    gpaRun Filter sigmaR 0 x = fun _ => gpaT := by
  refine ⟨rfl, rfl, ?_, by norm_num, gpaRun_zero Filter sigmaR x⟩
  intro px
  simp [gpaLoop, gpaInit]

theorem gpaInit_const_H {ι : Type} (Filter : Plane ι → Plane ι)
    (hconst : ∀ c : ℝ, Filter (fun _ => c) = fun _ => c) :
    gpaInit Filter (fun _ => (0 : ℝ)) =
      { F := fun _ => 1, G := fun _ => 1, P := fun _ => 0,
        Q := fun _ => 0, Fbar := fun _ => 1 } := by
  simp [gpaInit, hconst]

theorem gpaStep_const_state {ι : Type} (Filter : Plane ι → Plane ι)
    (hconst : ∀ c : ℝ, Filter (fun _ => c) = fun _ => c) (i : ℕ)
    (f g p q fb : ℝ) :
    gpaStep Filter (fun _ => (0 : ℝ)) i
      { F := fun _ => f, G := fun _ => g, P := fun _ => p,
        Q := fun _ => q, Fbar := fun _ => fb } =
      { F := fun _ => 0, G := fun _ => 0, P := fun _ => p,
        Q := fun _ => q + g * fb, Fbar := fun _ => 0 } := by
  simp [gpaStep, hconst]

theorem gpa_const_steady {ι : Type} (Filter : Plane ι → Plane ι)
    (hconst : ∀ c : ℝ, Filter (fun _ => c) = fun _ => c) :
    ∀ n : ℕ, 1 ≤ n →
      gpaLoop Filter (fun _ => (0 : ℝ)) n =
        { F := fun _ => 0, G := fun _ => 0, P := fun _ => 0,
          Q := fun _ => 1, Fbar := fun _ => 0 } := by
  intro n
  induction n with
  | zero => omega
  | succ n ih =>
      intro _
      rcases Nat.eq_zero_or_pos n with hn | hn
      · subst hn
        show gpaStep Filter (fun _ => (0 : ℝ)) 1
          (gpaLoop Filter (fun _ => (0 : ℝ)) 0) = _
        rw [gpaLoop_zero, gpaInit_const_H Filter hconst,
          gpaStep_const_state Filter hconst]
        simp
      · show gpaStep Filter (fun _ => (0 : ℝ)) (n + 1)
          (gpaLoop Filter (fun _ => (0 : ℝ)) n) = _
        rw [ih hn, gpaStep_const_state Filter hconst]
        simp

/-- Claim C8: on an everywhere-`0.5` input plane, with `sigmaR = 0.15`,
`T = 0.5`, any `N ≥ 1` and any low-pass operator that maps constant planes
to themselves, the output plane of the accumulation is `0.5` everywhere. -/
theorem GPA_constant_fixed_point {ι : Type} (Filter : Plane ι → Plane ι)
    (hconst : ∀ c : ℝ, Filter (fun _ => c) = fun _ => c)
    (N : ℕ) (hN : 1 ≤ N) :
    gpaRun Filter 0.15 N (fun _ => 0.5) = fun _ => (0.5 : ℝ) := by
  have hH : gpaH (ι := ι) 0.15 (fun _ => 0.5) = fun _ => (0 : ℝ) := by
    funext px
    show ((0.5 : ℝ) - gpaT) / 0.15 = 0
    rw [show gpaT = (0.5 : ℝ) from rfl]
    norm_num
  funext px
  simp only [gpaRun, gpaRes, hH, gpa_const_steady Filter hconst N hN]
  show (0 : ℝ) * 0.15 / ((1 : ℝ) + 1e-5) + gpaT = 0.5
  rw [show gpaT = (0.5 : ℝ) from rfl]
  norm_num

/-- Witness for C8 with the identity operator and `N = 1`. -/
theorem GPA_constant_fixed_point_witness :
    gpaRun (fun pl : Plane Unit => pl) 0.15 1 (fun _ => 0.5) =
      fun _ => (0.5 : ℝ) :=
  GPA_constant_fixed_point (fun pl : Plane Unit => pl) (fun _ => rfl) 1
    le_rfl

/-- Claim C9: `GPA` never validates `mode`: `mode = 0` selects the Gaussian
low-pass operator at `sigma = sigmaS`, and every other integer mode (not
only 1) selects the box operator at `radius = sigmaS + 1`; every mode value
produces a result (no error path depends on `mode`). -/
theorem GPA_mode_selection {ι : Type} (gauss box : ℝ → Plane ι → Plane ι)
    (sigmaS sigmaR : ℝ) (iteration : ℤ) (eps : ℝ) (x : Plane ι) :
    GPA gauss box sigmaS sigmaR 0 iteration eps x =
      GPAwith (gauss sigmaS) sigmaR iteration eps x ∧
    ∀ mode : ℤ, mode ≠ 0 →
      GPA gauss box sigmaS sigmaR mode iteration eps x =
        GPAwith (box (sigmaS + 1)) sigmaR iteration eps x := by
  constructor
  · simp [GPA]
  · intro mode hm
    simp [GPA, if_neg hm]

/-- Witness for C9: the box operator is selected at `mode = 2`. -/
theorem GPA_mode_selection_witness :
    GPA (fun _ (pl : Plane Unit) => pl) (fun _ pl => pl) 3 1 2 1 1
        (fun _ => 0) =
      GPAwith (fun (pl : Plane Unit) => pl) 1 1 1 (fun _ => 0) :=
  (GPA_mode_selection (fun _ (pl : Plane Unit) => pl) (fun _ pl => pl)
    3 1 1 1 (fun _ => 0)).2 2 (by decide)

/-- Claim C10: a negative `iteration` bypasses the auto-estimation (which
only fires at `iteration = 0`), runs the accumulation loop zero times, and
returns the constant plane `T = 0.5` regardless of the input samples. -/
theorem GPA_negative_iteration {ι : Type} (gauss box : ℝ → Plane ι → Plane ι)
    (sigmaS sigmaR : ℝ) (mode iteration : ℤ) (eps : ℝ) (x : Plane ι)
    (h : iteration < 0) :
    GPA gauss box sigmaS sigmaR mode iteration eps x =
      some (fun _ => (0.5 : ℝ)) := by
  have hne : iteration ≠ 0 := ne_of_lt h
  have htn : iteration.toNat = 0 := Int.toNat_of_nonpos h.le
  simp only [GPA, GPAwith, if_neg hne, htn]
  rw [gpaRun_zero]
  rfl

/-- Witness for C10 at `iteration = -3`. -/
theorem GPA_negative_iteration_witness :
    GPA (fun _ (pl : Plane Unit) => pl) (fun _ pl => pl) 3 1 0 (-3) 1
        (fun _ => 0.25) =
      some (fun _ => (0.5 : ℝ)) :=
  GPA_negative_iteration (fun _ (pl : Plane Unit) => pl) (fun _ pl => pl)
    3 1 0 (-3) 1 (fun _ => 0.25) (by decide)

theorem newton_iter_eq_specNewton (k : ℕ) (p q N : ℝ) :
    newton_iter k p q N = specNewton k p q N := by
  induction k generalizing N with
  | zero => rfl
  | succ k ih =>
      show Option.bind (newton_body p q N) (newton_iter k p q) = _
      have hb : newton_body p q N = specNewtonStep p q N := rfl
      rw [hb]
      show _ = Option.bind (specNewtonStep p q N) (specNewton k p q)
      cases specNewtonStep p q N with
      | none => rfl
      | some N' => exact ih N'

/-- Claim C2: for every `sigmaR` with `5 ≤ sigmaR ≤ 70` and every `T > 0`,
`eps > 0`, `estimate_iteration` computes `lam = (T/sigmaR)^2`,
`p = 1 + ln lam`, `q = −lam − ln eps`, takes the clamped asymptotic
initial estimate, applies exactly 5 Newton iterations for
`N·ln N − p·N − q = 0` precisely when `sigmaR < 30`, and returns `⌈N⌉`. -/
theorem estimate_iteration_middle_follows_spec (sigmaR T eps : ℝ)
    (h5 : 5 ≤ sigmaR) (h70 : sigmaR ≤ 70) (_hT : 0 < T) (_heps : 0 < eps) :
    estimate_iteration sigmaR T eps = specEstimateMiddle sigmaR T eps := by
  unfold estimate_iteration specEstimateMiddle specInitEstimate
  rw [if_neg (by linarith : ¬ sigmaR > 70), if_neg (by linarith : ¬ sigmaR < 5)]
  simp only [Option.bind_assoc, Option.some_bind, newton_iter_eq_specNewton]

/-- Witness for C2 at `sigmaR = 50`, `T = 1`, `eps = 1`. -/
theorem estimate_iteration_middle_follows_spec_witness :
    estimate_iteration 50 1 1 = specEstimateMiddle 50 1 1 :=
  estimate_iteration_middle_follows_spec 50 1 1 (by norm_num) (by norm_num)
    (by norm_num) (by norm_num)

/-- Claim C5: for every `sigmaR > 70` and every `T > 0`, `eps > 0`,
`estimate_iteration` returns exactly 10. -/
theorem estimate_iteration_large_sigmaR (sigmaR T eps : ℝ)
    (h : sigmaR > 70) (_hT : 0 < T) (_heps : 0 < eps) :
    estimate_iteration sigmaR T eps = some 10 := by
  unfold estimate_iteration
  rw [if_pos h]

/-- Witness for C5 at `sigmaR = 71`, `T = 1`, `eps = 1`. -/
theorem estimate_iteration_large_sigmaR_witness :
    estimate_iteration 71 1 1 = some 10 :=
  estimate_iteration_large_sigmaR 71 1 1 (by norm_num) (by norm_num)
    (by norm_num)

/-- Claim C6: for every `sigmaR < 5` (with `sigmaR > 0`) and every `T > 0`,
`eps > 0`, `estimate_iteration` returns exactly 800. -/
theorem estimate_iteration_small_sigmaR (sigmaR T eps : ℝ)
    (h : sigmaR < 5) (_h0 : 0 < sigmaR) (_hT : 0 < T) (_heps : 0 < eps) :
    estimate_iteration sigmaR T eps = some 800 := by
  unfold estimate_iteration
  rw [if_neg (by linarith : ¬ sigmaR > 70), if_pos h]

/-- Witness for C6 at `sigmaR = 1`, `T = 1`, `eps = 1`. -/
theorem estimate_iteration_small_sigmaR_witness :
    estimate_iteration 1 1 1 = some 800 :=
  estimate_iteration_small_sigmaR 1 1 1 (by norm_num) (by norm_num)
    (by norm_num) (by norm_num)

end Muvs

end
